import Mathlib

/-!
# Verification of the Intolerancies verdict engine and escalation paths

Shallow embedding of the TypeScript sources of the Intolerancies repository:

* `src/App.tsx` — the verdict engine `evaluateForProfile`, the lookup driver
  `fetchProduct` (AI-escalation trigger, status override, history insertion)
  and the client escalation call `evaluateWithAI`;
* `src/src/App.tsx` — the older revision's client escalation call `askAI`;
* `src/eval.ts` and `src/api/eval.ts` — the two revisions of the serverless
  `/api/eval` handler.

JavaScript strings are modelled as Lean `String`; `a || b` on strings is
modelled by `jsOr` (the empty string is the only falsy string reaching the
modelled call sites, and an absent field is modelled as `""`, which `||`
treats identically).  `toLowerCase` is modelled character-wise with the ASCII
lowering `Char.toLower`; every uppercase character appearing in the embedded
constants is ASCII, so the model agrees with JavaScript there.
-/

namespace Intolerancies

/-- The three verdict values of `type EvalStatus` in `src/App.tsx`. -/
inductive EvalStatus where
  | safe
  | avoid
  | maybe
deriving DecidableEq, Repr

/-- The fourteen categories of `type IntoleranceKey` in `src/App.tsx`. -/
inductive IntoleranceKey where
  | gluten
  | milk_protein
  | lactose
  | nuts
  | peanut
  | soy
  | egg
  | sesame
  | fish
  | shellfish
  | celery
  | mustard
  | sulphites
  | lupin
deriving DecidableEq, Repr

/-- The TypeScript record key of each category, as interpolated by
`${key}` into the tag regular expression in `evaluateForProfile`. -/
def keyName : IntoleranceKey → String
  | .gluten => "gluten"
  | .milk_protein => "milk_protein"
  | .lactose => "lactose"
  | .nuts => "nuts"
  | .peanut => "peanut"
  | .soy => "soy"
  | .egg => "egg"
  | .sesame => "sesame"
  | .fish => "fish"
  | .shellfish => "shellfish"
  | .celery => "celery"
  | .mustard => "mustard"
  | .sulphites => "sulphites"
  | .lupin => "lupin"

/-- One entry of the `INTOLERANCES` table in `src/App.tsx`. -/
structure IntoleranceSpec where
  sk : String
  cs : String
  terms : List String
deriving DecidableEq, Repr

/-- The `INTOLERANCES` table of `src/App.tsx`, lines 11–26, verbatim. -/
def INTOLERANCES : IntoleranceKey → IntoleranceSpec
  | .gluten =>
    { sk := "Lepok", cs := "Lepek",
      terms := ["lepok","pšenica","psenica","wheat","jačmeň","jacmen","barley","raž","raz","rye","špalda","spelta","spelt","ovos","gluten"] }
  | .milk_protein =>
    { sk := "Mliečna bielkovina (APLV)", cs := "Mléčná bílkovina",
      terms := ["mlieko","mliecna bielkovina","mliečna bielkovina","srvátka","whey","casein","kazein","kazeín","maslo","smotana","syr","tvaroh","mliečny","mléko","syrovátka","kasein"] }
  | .lactose =>
    { sk := "Laktóza", cs := "Laktóza",
      terms := ["laktóza","laktosa","lactose"] }
  | .nuts =>
    { sk := "Orechy stromové", cs := "Stromové ořechy",
      terms := ["lieskové","mandle","vlašské","kešu","pekany","piniové","pistácie","brazilské","hazelnut","almond","walnut","cashew","pecan","pistachio"] }
  | .peanut =>
    { sk := "Arašidy", cs := "Arašidy",
      terms := ["arašidy","arašídy","arašíd","peanut","arachis hypogaea"] }
  | .soy =>
    { sk := "Sója", cs := "Sója",
      terms := ["sója","soja","soy","sojový","sójový","lecitín (sojový)","sojový lecitín","soya"] }
  | .egg =>
    { sk := "Vajce", cs := "Vejce",
      terms := ["vajce","vajcia","vaječný","vaječné","albumín","egg","ovalbumin"] }
  | .sesame =>
    { sk := "Sezam", cs := "Sezam",
      terms := ["sezam","sesame","sezamové"] }
  | .fish =>
    { sk := "Ryby", cs := "Ryby",
      terms := ["ryba","ryby","fish","losos","tuniak","tuna","kapor","treska","cod","lososový"] }
  | .shellfish =>
    { sk := "Kôrovce/mäkkýše", cs := "Korýši/Měkkýši",
      terms := ["kreveta","krab","homár","mušla","slávka","lastúra","krevet","krabí","morský plod","shrimp","crab","lobster","mussel","shellfish"] }
  | .celery =>
    { sk := "Zeler", cs := "Celer",
      terms := ["zeler","celer","celery"] }
  | .mustard =>
    { sk := "Horčica", cs := "Hořčice",
      terms := ["horčica","horčičné semeno","horčičný","mustard","hořčice"] }
  | .sulphites =>
    { sk := "Oxidy siričité/siričitany", cs := "Oxidy siřičité/siřičitany",
      terms := ["oxid siričitý","siričitany","siričitan","oxid siřičitý","siřičitany","sulphites","sulfites","E220","E221","E222","E223","E224","E226","E227","E228"] }
  | .lupin =>
    { sk := "Vlčí bôb (lupina)", cs := "Vlčí bob (lupina)",
      terms := ["vlčí bôb","lupina","lupin","lupine"] }

/-- The user profile (`type Profile` in `src/App.tsx`). -/
structure Profile where
  name : String
  intolerances : List IntoleranceKey
deriving DecidableEq, Repr

/-- The fields of the Open Food Facts product object that
`evaluateForProfile` and `fetchProduct` read.  An absent field is modelled
as `""` (for strings) or `[]` (for tag arrays): the code only ever reads
these fields through `x || fallback`, `(x || []).join`, `.some` and
template interpolation of `x || ""`, for which `undefined` and the empty
value behave identically. -/
structure Product where
  allergens_tags : List String := []
  ingredients_text_sk : String := ""
  ingredients_text_cs : String := ""
  ingredients_text_en : String := ""
  ingredients_text : String := ""
  labels : String := ""
  traces : String := ""
  traces_tags : List String := []
  brands : String := ""
  product_name : String := ""
  generic_name : String := ""
deriving DecidableEq, Repr

/-- JavaScript `a || b` on strings (at the modelled call sites the only
falsy value is the empty string). -/
def jsOr (a b : String) : String := if a == "" then b else a

/-- Character-wise lower-casing, modelling `String.prototype.toLowerCase`
(ASCII-exact; all uppercase characters in the embedded constants are
ASCII). -/
def lowerStr (s : String) : String := ⟨s.data.map Char.toLower⟩

/-- Does the character list start with the given pattern? -/
def startsWithCB : List Char → List Char → Bool
  | [], _ => true
  | _ :: _, [] => false
  | a :: as, b :: bs => a == b && startsWithCB as bs

/-- Does `needle` occur as a contiguous run inside `hay`?  Models
`String.prototype.includes`. -/
def containsCB (needle : List Char) : List Char → Bool
  | [] => needle.isEmpty
  | c :: t => startsWithCB needle (c :: t) || containsCB needle t

/-- `hay.includes(needle)` on strings. -/
def strIncludes (hay needle : String) : Bool := containsCB needle.data hay.data

/-- Does the character list end with the given pattern? -/
def endsWithCB (needle hay : List Char) : Bool :=
  startsWithCB needle.reverse hay.reverse

/-- The literal a label denotes inside the tag `RegExp` of
`evaluateForProfile`: parentheses in the interpolated labels (for example
`"Mliečna bielkovina (APLV)"`) act as regular-expression grouping, so
they match nothing themselves. -/
def regexLiteral (s : String) : String :=
  ⟨s.data.filter (fun c => !(c == '(' || c == ')'))⟩

/-- The three alternatives `spec.sk|spec.cs|key` interpolated into the tag
`RegExp` for a category. -/
def tagAlts (k : IntoleranceKey) : List String :=
  [regexLiteral (INTOLERANCES k).sk, regexLiteral (INTOLERANCES k).cs, keyName k]

/-- Does tag text `t` match `(^|:)alt$`?  (`alt` and `t` are assumed
already lower-cased by the caller, modelling the `i` flag.) -/
def anchoredSuffix (alt t : List Char) : Bool :=
  endsWithCB alt t &&
    (t.length == alt.length || (t.take (t.length - alt.length)).getLastD ' ' == ':')

/-- The test `new RegExp((^|:)(spec.sk|spec.cs|key)$, "i").test(t)` from
line 205 of `src/App.tsx`. -/
def tagMatchesKey (k : IntoleranceKey) (t : String) : Bool :=
  (tagAlts k).any fun a => anchoredSuffix (lowerStr a).data (lowerStr t).data

/-- `p.ingredients_text_sk || p.ingredients_text_cs || p.ingredients_text_en
|| p.ingredients_text || ""` (line 195). -/
def textRaw (p : Product) : String :=
  jsOr p.ingredients_text_sk (jsOr p.ingredients_text_cs
    (jsOr p.ingredients_text_en p.ingredients_text))

/-- The active category list (line 199): a missing profile or an empty
intolerance list falls back to gluten + milk protein. -/
def activeOf (prof : Option Profile) : List IntoleranceKey :=
  match prof with
  | some pr => if pr.intolerances.isEmpty then [.gluten, .milk_protein] else pr.intolerances
  | none => [.gluten, .milk_protein]

/-- `tags.some(t => regex.test(t))` (line 205). -/
def hitTag (p : Product) (k : IntoleranceKey) : Bool :=
  p.allergens_tags.any (tagMatchesKey k)

/-- `spec.terms.some(t => txt.includes(t))` (line 206). -/
def hitTxt (p : Product) (k : IntoleranceKey) : Bool :=
  (INTOLERANCES k).terms.any fun t => strIncludes (lowerStr (textRaw p)) t

/-- The hard-match condition `hitTag || hitTxt` (line 208). -/
def hardHit (p : Product) (k : IntoleranceKey) : Bool :=
  hitTag p k || hitTxt p k

/-- The note pushed for a hard match (line 210). -/
def hardNote (k : IntoleranceKey) : String :=
  "Obsahuje / môže obsahovať: " ++ (INTOLERANCES k).sk ++ "."

/-- The body of the hard-match loop (lines 208–211). -/
def hardStep (p : Product) (acc : EvalStatus × List String) (k : IntoleranceKey) :
    EvalStatus × List String :=
  if hardHit p k then (EvalStatus.avoid, acc.2 ++ [hardNote k]) else acc

/-- The first loop of `evaluateForProfile` (lines 203–212): starting from
status `maybe` and no notes, each active hard-matching category forces
`avoid` and appends its note. -/
def step1 (p : Product) (active : List IntoleranceKey) : EvalStatus × List String :=
  active.foldl (hardStep p) (EvalStatus.maybe, [])

/-- The label-claims string (line 215). -/
def claimsStr (p : Product) : String :=
  lowerStr (p.labels ++ " " ++ p.traces ++ " " ++ String.intercalate " " p.traces_tags)

/-- The test `/gluten[- ]?free|bez lepku|bezlepkov/i` (line 216), unfolded
into its five literal alternatives over the lower-cased claims string. -/
def saysGF (p : Product) : Bool :=
  let c := claimsStr p
  strIncludes c "glutenfree" || strIncludes c "gluten-free" || strIncludes c "gluten free" ||
    strIncludes c "bez lepku" || strIncludes c "bezlepkov"

/-- The gluten-free-claim step (lines 217–220). -/
def gfStage (p : Product) (active : List IntoleranceKey)
    (st : EvalStatus) (notes : List String) : EvalStatus × List String :=
  if active.contains .gluten && saysGF p && !(st == .avoid) then
    (EvalStatus.safe, notes ++ ["Deklarované ako bezlepkové."])
  else (st, notes)

/-- The unresolved-`maybe` note (lines 222–224). -/
def maybeStage (st : EvalStatus) (notes : List String) : EvalStatus × List String :=
  if st == .maybe then
    (st, notes ++ ["Nenašli sa jasné rizikové alergény podľa profilu. Skontroluj etiketu."])
  else (st, notes)

/-- `(p.traces || (p.traces_tags || []).join(", ") || "").toLowerCase()`
(line 227). -/
def tracesStr (p : Product) : String :=
  lowerStr (jsOr p.traces (String.intercalate ", " p.traces_tags))

/-- `spec.terms.some(t => traces.includes(t))` (line 230). -/
def traceHit (p : Product) (k : IntoleranceKey) : Bool :=
  (INTOLERANCES k).terms.any fun t => strIncludes (tracesStr p) t

/-- The note pushed for a trace match (line 231). -/
def traceNote (k : IntoleranceKey) : String :=
  "Upozornenie: stopy " ++ (INTOLERANCES k).sk ++ "."

/-- The body of the traces loop (lines 230–233). -/
def traceStep (p : Product) (acc : EvalStatus × List String) (k : IntoleranceKey) :
    EvalStatus × List String :=
  if traceHit p k then
    ((if acc.1 == EvalStatus.safe then EvalStatus.maybe else acc.1),
      acc.2 ++ [traceNote k])
  else acc

/-- The traces loop (lines 228–234): each active trace-matching category
appends its note, and a `safe` status is downgraded to `maybe`. -/
def traceStage (p : Product) (active : List IntoleranceKey)
    (init : EvalStatus × List String) : EvalStatus × List String :=
  active.foldl (traceStep p) init

/-- A verdict: status plus notes (the return value of
`evaluateForProfile`). -/
structure EvalResult where
  status : EvalStatus
  notes : List String
deriving DecidableEq, Repr

/-- Status and notes after the hard-match loop, the gluten-free-claim step
and the `maybe` note, i.e. just before the traces loop. -/
def stage12 (p : Product) (prof : Option Profile) : EvalStatus × List String :=
  let active := activeOf prof
  let s1 := step1 p active
  let s2 := gfStage p active s1.1 s1.2
  maybeStage s2.1 s2.2

/-- The local status just before the traces loop. -/
def preTraceStatus (p : Product) (prof : Option Profile) : EvalStatus :=
  (stage12 p prof).1

/-- `evaluateForProfile` of `src/App.tsx`, lines 192–237. -/
def evaluateForProfile (p : Product) (prof : Option Profile) : EvalResult :=
  let s := traceStage p (activeOf prof) (stage12 p prof)
  ⟨s.1, s.2⟩

/-! ## Lemmas about the verdict-engine pipeline -/

theorem foldl_hardStep_fst (p : Product) (l : List IntoleranceKey) :
    ∀ (st : EvalStatus) (ns : List String),
      (l.foldl (hardStep p) (st, ns)).1
        = if l.any (hardHit p) then EvalStatus.avoid else st := by
  induction l with
  | nil => intro st ns; simp
  | cons k t ih =>
    intro st ns
    simp only [List.foldl_cons, List.any_cons, hardStep]
    by_cases h : hardHit p k = true
    · simp [h, ih]
    · simp only [Bool.not_eq_true] at h
      simp [h, ih]

theorem step1_fst (p : Product) (active : List IntoleranceKey) :
    (step1 p active).1 = if active.any (hardHit p) then EvalStatus.avoid else EvalStatus.maybe := by
  unfold step1
  exact foldl_hardStep_fst p active _ _

theorem gfStage_fst (p : Product) (active : List IntoleranceKey)
    (st : EvalStatus) (ns : List String) :
    (gfStage p active st ns).1
      = if active.contains .gluten && saysGF p && !(st == .avoid) then EvalStatus.safe else st := by
  unfold gfStage
  split <;> rfl

theorem maybeStage_fst (st : EvalStatus) (ns : List String) :
    (maybeStage st ns).1 = st := by
  unfold maybeStage
  split <;> rfl

theorem foldl_traceStep_fst (p : Product) (l : List IntoleranceKey) :
    ∀ (st : EvalStatus) (ns : List String),
      (l.foldl (traceStep p) (st, ns)).1
        = match st with
          | .avoid => .avoid
          | .maybe => .maybe
          | .safe => if l.any (traceHit p) then EvalStatus.maybe else EvalStatus.safe := by
  induction l with
  | nil => intro st ns; cases st <;> simp
  | cons k t ih =>
    intro st ns
    simp only [List.foldl_cons, List.any_cons, traceStep]
    by_cases h : traceHit p k = true
    · cases st <;> simp [h, ih]
    · simp only [Bool.not_eq_true] at h
      cases st <;> simp [h, ih]

theorem foldl_traceStep_notes (p : Product) (l : List IntoleranceKey) :
    ∀ init : EvalStatus × List String,
      ∃ t, (l.foldl (traceStep p) init).2 = init.2 ++ t := by
  induction l with
  | nil => intro init; exact ⟨[], by simp⟩
  | cons k tl ih =>
    intro init
    simp only [List.foldl_cons, traceStep]
    by_cases h : traceHit p k = true
    · simp only [h, if_pos]
      obtain ⟨t, ht⟩ := ih ((if init.1 == EvalStatus.safe then EvalStatus.maybe else init.1),
        init.2 ++ [traceNote k])
      exact ⟨[traceNote k] ++ t, by simpa using ht⟩
    · simp only [Bool.not_eq_true] at h
      simpa [h] using ih init

theorem foldl_traceStep_note_mem (p : Product) (l : List IntoleranceKey)
    (k : IntoleranceKey) (hk : k ∈ l) (hhit : traceHit p k = true) :
    ∀ init : EvalStatus × List String,
      traceNote k ∈ (l.foldl (traceStep p) init).2 := by
  induction l with
  | nil => cases hk
  | cons a tl ih =>
    intro init
    simp only [List.foldl_cons]
    rcases List.mem_cons.mp hk with rfl | hmem
    · obtain ⟨t, ht⟩ := foldl_traceStep_notes p tl (traceStep p init k)
      rw [ht]
      simp [traceStep, hhit]
    · exact ih hmem _

theorem evaluateForProfile_status (p : Product) (prof : Option Profile) :
    (evaluateForProfile p prof).status = (traceStage p (activeOf prof) (stage12 p prof)).1 := rfl

theorem evaluateForProfile_notes (p : Product) (prof : Option Profile) :
    (evaluateForProfile p prof).notes = (traceStage p (activeOf prof) (stage12 p prof)).2 := rfl

theorem stage12_fst (p : Product) (prof : Option Profile) :
    (stage12 p prof).1
      = (gfStage p (activeOf prof) (step1 p (activeOf prof)).1 (step1 p (activeOf prof)).2).1 := by
  unfold stage12
  exact maybeStage_fst _ _

theorem preTraceStatus_eq (p : Product) (prof : Option Profile) :
    preTraceStatus p prof
      = (gfStage p (activeOf prof) (step1 p (activeOf prof)).1 (step1 p (activeOf prof)).2).1 :=
  stage12_fst p prof

theorem evaluateForProfile_status_trace (p : Product) (prof : Option Profile) :
    (evaluateForProfile p prof).status
      = match preTraceStatus p prof with
        | .avoid => .avoid
        | .maybe => .maybe
        | .safe => if (activeOf prof).any (traceHit p) then EvalStatus.maybe else EvalStatus.safe := by
  rw [evaluateForProfile_status]
  unfold traceStage
  have h := foldl_traceStep_fst p (activeOf prof) (stage12 p prof).1 (stage12 p prof).2
  simpa [preTraceStatus] using h

/-- Core fact shared by several claims: any active hard match forces the
final verdict `avoid`. -/
theorem status_avoid_of_hardHit (p : Product) (prof : Option Profile)
    (h : ∃ k ∈ activeOf prof, hardHit p k = true) :
    (evaluateForProfile p prof).status = EvalStatus.avoid := by
  have hany : (activeOf prof).any (hardHit p) = true := by
    obtain ⟨k, hk, hhit⟩ := h
    exact List.any_eq_true.mpr ⟨k, hk, hhit⟩
  have hpre : preTraceStatus p prof = EvalStatus.avoid := by
    rw [preTraceStatus_eq, gfStage_fst, step1_fst, hany]
    simp
  rw [evaluateForProfile_status_trace, hpre]

/-- With no active hard match, the pre-trace status is `safe` exactly on a
gluten-free claim with gluten active, and `maybe` otherwise. -/
theorem preTrace_of_no_hardHit (p : Product) (prof : Option Profile)
    (hnohard : ∀ k ∈ activeOf prof, hardHit p k = false) :
    preTraceStatus p prof
      = if (activeOf prof).contains .gluten && saysGF p then EvalStatus.safe
        else EvalStatus.maybe := by
  have hany : (activeOf prof).any (hardHit p) = false := by
    rw [List.any_eq_false]
    intro k hk
    simp [hnohard k hk]
  have hbe : (EvalStatus.maybe == EvalStatus.avoid) = false := rfl
  rw [preTraceStatus_eq, gfStage_fst, step1_fst, hany]
  simp [hbe]

/-- With no active hard match, the pre-trace status is never `avoid`. -/
theorem preTrace_ne_avoid_of_no_hardHit (p : Product) (prof : Option Profile)
    (hnohard : ∀ k ∈ activeOf prof, hardHit p k = false) :
    preTraceStatus p prof ≠ EvalStatus.avoid := by
  rw [preTrace_of_no_hardHit p prof hnohard]
  split <;> simp

/-! ## Claim C1 -/

/-- Claim C1: for every product record and profile, if any active category
hard-matches (a keyword fragment occurs in the lower-cased ingredient
text, or an allergen tag matches the category), then `evaluateForProfile`
returns status `avoid`; in particular no label claim can raise the status
to `safe`. -/
theorem c1_hard_match_forces_avoid (p : Product) (prof : Option Profile)
    (h : ∃ k ∈ activeOf prof, hardHit p k = true) :
    (evaluateForProfile p prof).status = EvalStatus.avoid :=
  status_avoid_of_hardHit p prof h

/-- Witness for C1: plain wheat-flour ingredients with the default profile
trigger a gluten hard match, and the verdict is `avoid`. -/
theorem c1_hard_match_forces_avoid_witness :
    (evaluateForProfile { ingredients_text := "wheat flour, water, salt" } none).status
      = EvalStatus.avoid :=
  c1_hard_match_forces_avoid _ none ⟨.gluten, by decide, by decide⟩

/-! ## Claim C8 -/

/-- Claim C8: when the profile is absent, or its intolerance set is empty,
`evaluateForProfile` matches against the default subset
{gluten, milk_protein} rather than matching nothing: the active list is
that default, and the verdict coincides with the verdict for an explicit
gluten + milk-protein profile. -/
theorem c8_default_profile_subset (p : Product) (nm : String) :
    activeOf none = [.gluten, .milk_protein]
    ∧ activeOf (some ⟨nm, []⟩) = [.gluten, .milk_protein]
    ∧ evaluateForProfile p none
        = evaluateForProfile p (some ⟨nm, [.gluten, .milk_protein]⟩)
    ∧ evaluateForProfile p (some ⟨nm, []⟩) = evaluateForProfile p none :=
  ⟨rfl, rfl, rfl, rfl⟩

/-! ## Claim C2 -/

/-- Claim C2: a match of an active category's keyword fragments occurring
only in the traces field (no hard match anywhere) never yields `avoid` by
itself; it appends a cautionary note for each trace-matching active
category; it downgrades a pre-trace `safe` to `maybe` and leaves a
pre-trace `maybe` as `maybe`; and for any input at all the traces loop
never downgrades a pre-trace `avoid`. -/
theorem c2_trace_only_semantics (p : Product) (prof : Option Profile)
    (hnohard : ∀ k ∈ activeOf prof, hardHit p k = false)
    (htrace : ∃ k ∈ activeOf prof, traceHit p k = true) :
    (evaluateForProfile p prof).status ≠ EvalStatus.avoid
    ∧ (∀ k ∈ activeOf prof, traceHit p k = true →
        traceNote k ∈ (evaluateForProfile p prof).notes)
    ∧ (preTraceStatus p prof = EvalStatus.safe →
        (evaluateForProfile p prof).status = EvalStatus.maybe)
    ∧ (preTraceStatus p prof = EvalStatus.maybe →
        (evaluateForProfile p prof).status = EvalStatus.maybe)
    ∧ (∀ (q : Product) (qprof : Option Profile),
        preTraceStatus q qprof = EvalStatus.avoid →
          (evaluateForProfile q qprof).status = EvalStatus.avoid) := by
  have hanyt : (activeOf prof).any (traceHit p) = true := by
    obtain ⟨k, hk, hhit⟩ := htrace
    exact List.any_eq_true.mpr ⟨k, hk, hhit⟩
  have hpre := preTrace_ne_avoid_of_no_hardHit p prof hnohard
  refine ⟨?_, ?_, ?_, ?_, ?_⟩
  · rw [evaluateForProfile_status_trace]
    cases hp : preTraceStatus p prof
    · rw [hanyt]
      simp
    · exact absurd hp hpre
    · simp
  · intro k hk hhit
    rw [evaluateForProfile_notes]
    exact foldl_traceStep_note_mem p _ k hk hhit _
  · intro hp
    rw [evaluateForProfile_status_trace, hp, hanyt]
    rfl
  · intro hp
    rw [evaluateForProfile_status_trace, hp]
  · intro q qprof hp
    rw [evaluateForProfile_status_trace, hp]

/-- Witness for C2: milk traces on an otherwise empty product, with the
default profile, give a non-`avoid` verdict. -/
theorem c2_trace_only_semantics_witness :
    (evaluateForProfile { traces := "mlieko" } none).status ≠ EvalStatus.avoid :=
  (c2_trace_only_semantics { traces := "mlieko" } none (by decide)
    ⟨.milk_protein, by decide, by decide⟩).1

/-! ## Claim C3 -/

/-- Modelled from the claim's words (not from the source): tag `hay`
case-insensitively contains `needle` as a substring. -/
def containsCI (hay needle : String) : Bool :=
  strIncludes (lowerStr hay) (lowerStr needle)

/-- Counterexample to C3 as stated: the allergen tag `"glutenx"`
case-insensitively contains the canonical name `"gluten"` of the gluten
category as a substring, yet `evaluateForProfile` registers no hard match
for gluten (the tag regular expression is anchored at the end of the
tag), and the verdict stays `maybe` instead of `avoid`. -/
theorem c3_substring_tag_not_hard_match :
    containsCI "glutenx" (keyName .gluten) = true
    ∧ IntoleranceKey.gluten ∈ activeOf none
    ∧ hitTag { allergens_tags := ["glutenx"] } .gluten = false
    ∧ hardHit { allergens_tags := ["glutenx"] } .gluten = false
    ∧ (evaluateForProfile { allergens_tags := ["glutenx"] } none).status
        = EvalStatus.maybe := by
  decide

/-- Claim C3, amended: `evaluateForProfile` registers a hard match (and
returns `avoid`) whenever some allergen tag, case-insensitively, equals —
or ends, right after a colon or the start of the tag, with — the
category's canonical key name or its sk/cs label (with the labels read as
the regular-expression literals they are interpolated as, i.e. with
parentheses acting as grouping); mere substring containment elsewhere in
the tag does not register a hard match. -/
theorem c3_anchored_tag_match_forces_avoid (p : Product) (prof : Option Profile)
    (k : IntoleranceKey) (t : String) (hk : k ∈ activeOf prof)
    (ht : t ∈ p.allergens_tags) (hm : tagMatchesKey k t = true) :
    (evaluateForProfile p prof).status = EvalStatus.avoid := by
  have htag : hitTag p k = true := List.any_eq_true.mpr ⟨t, ht, hm⟩
  have hhard : hardHit p k = true := by
    unfold hardHit
    rw [htag]
    rfl
  exact status_avoid_of_hardHit p prof ⟨k, hk, hhard⟩

/-- Witness for amended C3: the tag `"en:gluten"` matches the anchored
pattern for gluten and forces `avoid`. -/
theorem c3_anchored_tag_match_forces_avoid_witness :
    (evaluateForProfile { allergens_tags := ["en:gluten"] } none).status
      = EvalStatus.avoid :=
  c3_anchored_tag_match_forces_avoid _ none .gluten "en:gluten"
    (by decide) (by decide) (by decide)

/-! ## Claim C5 -/

/-- Counterexample to C5 as stated: a product labelled `"gluten-free"`
whose traces field lists milk (`"mlieko"`), under the default profile,
satisfies every hypothesis of the claim — the label claims match the
gluten-free pattern, gluten is active, and no active category
hard-matches — yet the verdict is `maybe`, not `safe`: the traces loop
downgrades the `safe` status earned by the label claim. -/
theorem c5_gf_claim_with_milk_traces_not_safe :
    saysGF { labels := "gluten-free", traces := "mlieko" } = true
    ∧ IntoleranceKey.gluten ∈ activeOf none
    ∧ (∀ k ∈ activeOf none,
        hardHit { labels := "gluten-free", traces := "mlieko" } k = false)
    ∧ (evaluateForProfile { labels := "gluten-free", traces := "mlieko" } none).status
        = EvalStatus.maybe := by
  decide

/-- Claim C5, amended: if the label claims match a gluten-free pattern,
gluten is active, no active category hard-matches, and additionally no
active category matches in the traces field, then `evaluateForProfile`
returns `safe`. -/
theorem c5_gf_claim_safe_without_trace (p : Product) (prof : Option Profile)
    (hk : IntoleranceKey.gluten ∈ activeOf prof)
    (hgf : saysGF p = true)
    (hnohard : ∀ k ∈ activeOf prof, hardHit p k = false)
    (hnotrace : ∀ k ∈ activeOf prof, traceHit p k = false) :
    (evaluateForProfile p prof).status = EvalStatus.safe := by
  have hc : (activeOf prof).contains .gluten = true := by
    simpa using hk
  have hanyt : (activeOf prof).any (traceHit p) = false := by
    rw [List.any_eq_false]
    intro k hk2
    simp [hnotrace k hk2]
  have hpre : preTraceStatus p prof = EvalStatus.safe := by
    rw [preTrace_of_no_hardHit p prof hnohard, hc, hgf]
    rfl
  rw [evaluateForProfile_status_trace, hpre, hanyt]
  rfl

/-- Witness for amended C5: a `"gluten-free"` label with empty
ingredients, tags and traces, under a gluten-only profile, yields
`safe`. -/
theorem c5_gf_claim_safe_without_trace_witness :
    (evaluateForProfile { labels := "gluten-free" } (some ⟨"R", [.gluten]⟩)).status
      = EvalStatus.safe :=
  c5_gf_claim_safe_without_trace _ _ (by decide) (by decide) (by decide) (by decide)

/-! ## The lookup driver `fetchProduct` (src/App.tsx, lines 150–190) -/

/-- The shape of an `evaluateWithAI` reply as consumed by `fetchProduct`:
an optional status and optional notes. -/
structure AiResult where
  status : Option EvalStatus
  notes : Option (List String)
deriving DecidableEq, Repr

/-- `!(p.ingredients_text || p.ingredients_text_sk || p.ingredients_text_cs
|| p.ingredients_text_en)` (line 168): the ingredient text is empty across
all checked language fields. -/
def ingredientsMissing (p : Product) : Bool :=
  jsOr p.ingredients_text (jsOr p.ingredients_text_sk
    (jsOr p.ingredients_text_cs p.ingredients_text_en)) == ""

/-- The AI-escalation trigger of `fetchProduct` (line 168): local verdict
`maybe`, or ingredient text missing. -/
def aiTriggered (p : Product) (prof : Option Profile) : Bool :=
  (evaluateForProfile p prof).status == EvalStatus.maybe || ingredientsMissing p

/-- The status and notes displayed after `fetchProduct` lines 163–179: the
local verdict; then, when the trigger fires, `setStatus(ai.status)` if the
status is present and appending `ai.notes` if non-empty. -/
def displayedResult (p : Product) (prof : Option Profile) (ai : AiResult) : EvalResult :=
  let base := evaluateForProfile p prof
  if aiTriggered p prof then
    { status := match ai.status with | some s => s | none => base.status
      notes := match ai.notes with
        | some (n :: rest) => base.notes ++ (n :: rest)
        | _ => base.notes }
  else base

/-- A history entry (`fetchProduct` lines 181–184). -/
structure HistoryEntry where
  code : String
  brand : String
  name : String
  status : EvalStatus
  ts : Nat
deriving DecidableEq, Repr

/-- The entry `fetchProduct` pushes into history (lines 181–184): it
records `base.status`, the local verdict. -/
def historyEntryOf (code : String) (p : Product) (prof : Option Profile)
    (now : Nat) : HistoryEntry :=
  { code := code
    brand := p.brands
    name := jsOr p.product_name (jsOr p.generic_name "Neznámy produkt")
    status := (evaluateForProfile p prof).status
    ts := now }

theorem jsOr_eq_empty_iff (a b : String) : jsOr a b = "" ↔ a = "" ∧ b = "" := by
  unfold jsOr
  split
  · rename_i h
    have ha : a = "" := by simpa using h
    simp [ha]
  · rename_i h
    have ha : ¬a = "" := by simpa using h
    simp [ha]

theorem ingredientsMissing_iff (p : Product) :
    ingredientsMissing p = true
      ↔ (p.ingredients_text = "" ∧ p.ingredients_text_sk = ""
          ∧ p.ingredients_text_cs = "" ∧ p.ingredients_text_en = "") := by
  unfold ingredientsMissing
  simp [jsOr_eq_empty_iff, and_assoc]

/-! ## Claim C4 -/

/-- Claim C4: the Advisory Escalation call is made exactly when the local
verdict is `maybe` or the ingredient text is empty across all checked
language fields; when it is made, a present reply status (necessarily one
of the three valid values) overrides the local status, an absent one
keeps the local status, and the reply notes are appended to — not
replacing — the local notes; when it is not made, the local result stands
unchanged. -/
theorem c4_escalation_trigger_and_override (p : Product) (prof : Option Profile)
    (ai : AiResult) :
    (aiTriggered p prof = true
      ↔ ((evaluateForProfile p prof).status = EvalStatus.maybe
          ∨ (p.ingredients_text = "" ∧ p.ingredients_text_sk = ""
              ∧ p.ingredients_text_cs = "" ∧ p.ingredients_text_en = "")))
    ∧ (aiTriggered p prof = true →
        (∀ s, ai.status = some s → (displayedResult p prof ai).status = s)
        ∧ (ai.status = none →
            (displayedResult p prof ai).status = (evaluateForProfile p prof).status)
        ∧ (displayedResult p prof ai).notes
            = (evaluateForProfile p prof).notes ++ ai.notes.getD [])
    ∧ (aiTriggered p prof = false →
        displayedResult p prof ai = evaluateForProfile p prof) := by
  refine ⟨?_, ?_, ?_⟩
  · unfold aiTriggered
    rw [Bool.or_eq_true, ingredientsMissing_iff]
    simp
  · intro htrig
    refine ⟨?_, ?_, ?_⟩
    · intro s hs
      simp [displayedResult, htrig, hs]
    · intro hs
      simp [displayedResult, htrig, hs]
    · cases hn : ai.notes with
      | none => simp [displayedResult, htrig, hn]
      | some l =>
        cases l with
        | nil => simp [displayedResult, htrig, hn]
        | cons n rest => simp [displayedResult, htrig, hn]
  · intro hfalse
    simp [displayedResult, hfalse]

/-- Witness for C4: an empty product triggers escalation (local verdict
`maybe` and missing ingredients), and a reply status `avoid` overrides
the local status. -/
theorem c4_escalation_trigger_and_override_witness :
    (displayedResult {} none ⟨some EvalStatus.avoid, some ["n"]⟩).status
      = EvalStatus.avoid :=
  ((c4_escalation_trigger_and_override {} none
    ⟨some EvalStatus.avoid, some ["n"]⟩).2.1 (by decide)).1 EvalStatus.avoid rfl

/-! ## Claim C10 -/

/-- Claim C10: the history entry recorded by `fetchProduct` carries the
local (pre-escalation) status computed by `evaluateForProfile`, while a
present escalation reply status is what gets displayed — so the stored
history status can differ from the displayed verdict, as the concrete
empty-product lookup with an `avoid` reply shows. -/
theorem c10_history_keeps_local_status (code : String) (p : Product)
    (prof : Option Profile) (ai : AiResult) (now : Nat) :
    (historyEntryOf code p prof now).status = (evaluateForProfile p prof).status
    ∧ (aiTriggered p prof = true → ∀ s, ai.status = some s →
        (displayedResult p prof ai).status = s)
    ∧ (displayedResult {} none ⟨some EvalStatus.avoid, none⟩).status
        ≠ (historyEntryOf "0" {} none 0).status := by
  refine ⟨rfl, ?_, by decide⟩
  intro ht s hs
  simp [displayedResult, ht, hs]

/-- Witness for C10: with the empty product and an `avoid` reply, the
displayed status is the reply status. -/
theorem c10_history_keeps_local_status_witness :
    (displayedResult {} none ⟨some EvalStatus.avoid, none⟩).status
      = EvalStatus.avoid :=
  (c10_history_keeps_local_status "0" {} none ⟨some EvalStatus.avoid, none⟩ 0).2.1
    (by decide) EvalStatus.avoid rfl

/-! ## Claim C9 -/

/-- The functional update `fetchProduct` applies to the history list
(lines 181–184): the new entry goes to the front and every prior entry
with the same code is dropped. -/
def insertHistory (e : HistoryEntry) (h : List HistoryEntry) : List HistoryEntry :=
  e :: h.filter (fun x => !(x.code == e.code))

/-- The persistence effect of the history (`App`, lines 66–68): the stored
document is `history.slice(0, 100)`. -/
def persistHistory (h : List HistoryEntry) : List HistoryEntry := h.take 100

/-- Claim C9: inserting a lookup result is idempotent per code — after the
insertion (and the persistence cap) there is exactly one entry for that
code, at the front, carrying the new entry's timestamp and status; given
the invariants on the prior history (timestamps no newer than the new
entry, descending order, no duplicate codes), the history remains ordered
by descending timestamp, contains no duplicate codes, and is capped at
100 entries. -/
theorem c9_history_insert_invariants (e : HistoryEntry) (h : List HistoryEntry)
    (hts : ∀ x ∈ h, x.ts ≤ e.ts)
    (hsorted : h.Pairwise (fun a b => b.ts ≤ a.ts))
    (hnodup : h.Pairwise (fun a b => a.code ≠ b.code)) :
    (persistHistory (insertHistory e h)).head? = some e
    ∧ (persistHistory (insertHistory e h)).countP (fun x => x.code == e.code) = 1
    ∧ (persistHistory (insertHistory e h)).Pairwise (fun a b => b.ts ≤ a.ts)
    ∧ (persistHistory (insertHistory e h)).Pairwise (fun a b => a.code ≠ b.code)
    ∧ (persistHistory (insertHistory e h)).length ≤ 100 := by
  have hdecomp : persistHistory (insertHistory e h)
      = e :: (h.filter (fun x => !(x.code == e.code))).take 99 := rfl
  have hsub : List.Sublist ((h.filter (fun x => !(x.code == e.code))).take 99) h :=
    (List.take_sublist _ _).trans (List.filter_sublist h)
  have hmem : ∀ x ∈ (h.filter (fun x => !(x.code == e.code))).take 99,
      x.code ≠ e.code ∧ x.ts ≤ e.ts := by
    intro x hx
    have hxf : x ∈ h.filter (fun x => !(x.code == e.code)) :=
      List.take_subset _ _ hx
    obtain ⟨hxh, hcode⟩ := List.mem_filter.mp hxf
    refine ⟨?_, hts x hxh⟩
    simpa using hcode
  refine ⟨by rw [hdecomp]; rfl, ?_, ?_, ?_, ?_⟩
  · rw [hdecomp, List.countP_cons]
    have hzero : List.countP (fun x => x.code == e.code)
        ((h.filter (fun x => !(x.code == e.code))).take 99) = 0 := by
      rw [List.countP_eq_zero]
      intro x hx
      simp [(hmem x hx).1]
    simp [hzero]
  · rw [hdecomp]
    exact List.Pairwise.cons (fun x hx => (hmem x hx).2) (hsorted.sublist hsub)
  · rw [hdecomp]
    exact List.Pairwise.cons (fun x hx => Ne.symm (hmem x hx).1) (hnodup.sublist hsub)
  · exact List.length_take_le _ _

/-- Witness for C9: inserting a fresh entry ahead of a one-element history
(same code, older timestamp) leaves exactly one entry for the code, at the
front. -/
theorem c9_history_insert_invariants_witness :
    (persistHistory (insertHistory ⟨"8586", "b", "n", EvalStatus.avoid, 5⟩
        [⟨"8586", "b", "n", EvalStatus.safe, 3⟩])).head?
      = some ⟨"8586", "b", "n", EvalStatus.avoid, 5⟩ :=
  (c9_history_insert_invariants ⟨"8586", "b", "n", EvalStatus.avoid, 5⟩
    [⟨"8586", "b", "n", EvalStatus.safe, 3⟩]
    (by decide) (by decide) (by decide)).1

/-! ## The serverless `/api/eval` handlers (src/eval.ts and src/api/eval.ts) -/

/-- The defensively parsed reply of the text-generation service (result of
`JSON.parse` on the content, or of the embedded-block fallback): an
optional raw `status` string and optional `notes` array. -/
structure ParsedReply where
  status : Option String
  notes : Option (List String)
deriving DecidableEq, Repr

/-- The outcome of the handler's upstream call: the `fetch`/`json()` chain
threw, the response was non-OK, or a reply body was obtained (with `none`
for a reply from which no structured block could be parsed). -/
inductive UpstreamOutcome where
  | threw (msg : String)
  | httpErr (status : Nat) (text : String)
  | replied (content : String) (parsed : Option ParsedReply)
deriving DecidableEq, Repr

/-- An HTTP response of a handler: the status code plus the JSON body
fields the client reads; `ok = none` models an empty `end()` body. -/
structure ApiResponse where
  httpStatus : Nat
  ok : Option Bool
  status : Option EvalStatus
  notes : List String
  error : Option String
deriving DecidableEq, Repr

/-- `s.slice(0, n)` on strings. -/
def strSlice (s : String) (n : Nat) : String := ⟨s.data.take n⟩

/-- The handler of `src/eval.ts`, lines 19–98.  `code` is the request's
`code` field (`""` for missing), `hasKey` whether `OPENAI_API_KEY` is
set, and `up` the outcome of the upstream call (reaching the upstream at
all presupposes the earlier guards passed, as in the source). -/
def handlerEval (method : String) (code : String) (hasKey : Bool)
    (up : UpstreamOutcome) : ApiResponse :=
  if method == "OPTIONS" then ⟨200, none, none, [], none⟩
  else if !(method == "POST") then ⟨405, some false, none, [], some "Method Not Allowed"⟩
  else if code == "" then ⟨400, some false, none, [], some "Missing code"⟩
  else if !hasKey then
    ⟨200, some true, some .maybe,
      ["AI kľúč nie je nastavený na serveri. Použité boli iba dáta z OFF."], none⟩
  else
    match up with
    | .threw msg =>
        ⟨200, some true, some .maybe,
          ["AI výnimka na serveri.", jsOr msg "Unknown error"], none⟩
    | .httpErr st txt =>
        ⟨200, some true, some .maybe,
          ["AI požiadavka zlyhala.", (toString st ++ " " ++ txt).trim], none⟩
    | .replied content parsed =>
        let pst := (parsed.bind ParsedReply.status).getD ""
        let st : EvalStatus :=
          if pst == "safe" then .safe
          else if pst == "avoid" then .avoid
          else if pst == "maybe" then .maybe
          else .maybe
        let nts : List String :=
          match parsed.bind ParsedReply.notes with
          | some l => l
          | none => [jsOr content ""]
        ⟨200, some true, some st, nts, none⟩

/-- The handler of `src/api/eval.ts`, lines 31–146.  `bodyOk` is whether
the request body parsed as JSON. -/
def handlerApiEval (method : String) (hasKey : Bool) (bodyOk : Bool)
    (up : UpstreamOutcome) : ApiResponse :=
  if method == "OPTIONS" then ⟨204, none, none, [], none⟩
  else if !(method == "POST") then ⟨405, some false, none, [], some "Method not allowed"⟩
  else if !hasKey then
    ⟨200, some true, some .maybe,
      ["Chýba OPENAI_API_KEY na Verceli – AI sa preskočila."], none⟩
  else if !bodyOk then ⟨400, some false, none, [], some "Bad JSON body"⟩
  else
    match up with
    | .threw msg =>
        ⟨200, some true, some .maybe,
          ["AI požiadavka zlyhala.", strSlice msg 300], none⟩
    | .httpErr st txt =>
        ⟨200, some true, some .maybe,
          ["AI požiadavka zlyhala (HTTP " ++ toString st ++ ").", strSlice txt 300], none⟩
    | .replied content parsed =>
        let pst := (parsed.bind ParsedReply.status).getD ""
        let st : EvalStatus :=
          if pst == "safe" then .safe
          else if pst == "avoid" then .avoid
          else .maybe
        let nts : List String :=
          match parsed.bind ParsedReply.notes with
          | some (n :: rest) => (n :: rest).take 5
          | _ => ["Nedostatočné údaje."]
        ⟨200, some true, some st, nts, none⟩

/-- An internal failure in the sense of claim C6: missing API key,
non-success upstream HTTP response, unparseable upstream reply, or a
thrown exception. -/
def internalFailure (hasKey : Bool) (up : UpstreamOutcome) : Prop :=
  hasKey = false
    ∨ (∃ s t, up = .httpErr s t)
    ∨ (∃ m, up = .threw m)
    ∨ (∃ c, up = .replied c none)

/-! ## Claim C6 -/

/-- Claim C6: both revisions of the `/api/eval` handler respond with HTTP
200 and status `maybe` on any internal failure (missing API key,
non-success upstream HTTP response, unparseable upstream reply, or a
thrown exception), and neither ever responds with a 5xx code on any
request at all. -/
theorem c6_handlers_fail_closed_maybe (method code : String)
    (hasKey bodyOk : Bool) (up : UpstreamOutcome) :
    ((handlerEval method code hasKey up).httpStatus < 500
      ∧ (handlerApiEval method hasKey bodyOk up).httpStatus < 500)
    ∧ (method = "POST" → code ≠ "" → internalFailure hasKey up →
        (handlerEval method code hasKey up).httpStatus = 200
        ∧ (handlerEval method code hasKey up).status = some EvalStatus.maybe)
    ∧ (method = "POST" → bodyOk = true → internalFailure hasKey up →
        (handlerApiEval method hasKey bodyOk up).httpStatus = 200
        ∧ (handlerApiEval method hasKey bodyOk up).status = some EvalStatus.maybe) := by
  refine ⟨⟨?_, ?_⟩, ?_, ?_⟩
  · unfold handlerEval
    repeat' split
    all_goals simp
  · unfold handlerApiEval
    repeat' split
    all_goals simp
  · intro hm hc hfail
    subst hm
    have hcb : (code == "") = false := by
      simpa using hc
    cases hk : hasKey with
    | false => simp [handlerEval, hcb]
    | true =>
      rcases hfail with hkey | ⟨s, t, hup⟩ | ⟨m, hup⟩ | ⟨c, hup⟩
      · exact absurd (hk ▸ hkey) (by simp)
      · subst hup
        simp [handlerEval, hcb]
      · subst hup
        simp [handlerEval, hcb]
      · subst hup
        simp [handlerEval, hcb]
  · intro hm hb hfail
    subst hm
    subst hb
    cases hk : hasKey with
    | false => simp [handlerApiEval]
    | true =>
      rcases hfail with hkey | ⟨s, t, hup⟩ | ⟨m, hup⟩ | ⟨c, hup⟩
      · exact absurd (hk ▸ hkey) (by simp)
      · subst hup
        simp [handlerApiEval]
      · subst hup
        simp [handlerApiEval]
      · subst hup
        simp [handlerApiEval]

/-- Witness for C6: a POST with a code but no configured API key gets 200
and status `maybe` from the `src/eval.ts` handler. -/
theorem c6_handlers_fail_closed_maybe_witness :
    (handlerEval "POST" "8586" false (.threw "boom")).httpStatus = 200
    ∧ (handlerEval "POST" "8586" false (.threw "boom")).status
        = some EvalStatus.maybe :=
  (c6_handlers_fail_closed_maybe "POST" "8586" false true (.threw "boom")).2.1
    rfl (by decide) (Or.inl rfl)

/-! ## The client escalation calls -/

/-- The JSON reply shape `type AiReply` consumed by `evaluateWithAI` in
`src/App.tsx`. -/
structure AiReply where
  ok : Bool
  status : Option EvalStatus
  notes : Option (List String)
deriving DecidableEq, Repr

/-- The outcome of the `fetch` in `evaluateWithAI`: the whole call threw
(network failure, abort/timeout), or a response arrived with `ok` flag,
HTTP status, error-body text, and the result of `res.json()` (`none` if
`json()` rejected, which the source replaces by `{ok: false}`). -/
inductive FetchOutcome where
  | threw
  | response (ok : Bool) (httpStatus : Nat) (text : String) (json : Option AiReply)
deriving DecidableEq, Repr

/-- `evaluateWithAI` of `src/App.tsx`, lines 239–261, as a total function
of the fetch outcome (totality models that every path is caught and no
exception propagates to the caller). -/
def evaluateWithAI : FetchOutcome → AiResult
  | .threw =>
      ⟨none, some ["AI nie je dostupná (sieť/kvóta). Rozhodnutie je len podľa OFF."]⟩
  | .response ok st txt json =>
      if !ok then
        ⟨none, some (["AI doplnenie nie je dostupné (" ++ toString st ++ ")."]
          ++ (if txt == "" then [] else [txt]))⟩
      else
        let data := json.getD ⟨false, none, none⟩
        if !data.ok then
          ⟨none, some ["AI odpoveď nebola v poriadku. Použité boli len dáta z OFF."]⟩
        else ⟨data.status, data.notes⟩

/-- The outcome of the `fetch` in `askAI` (`src/src/App.tsx`): threw, or a
response with `ok` flag and the result of `res.json()` (`none` if
`json()` rejected). -/
inductive AskOutcome where
  | threw
  | response (ok : Bool) (json : Option ParsedReply)
deriving DecidableEq, Repr

/-- `askAI` of `src/src/App.tsx`, lines 549–561, as a total function of
the fetch outcome: a non-OK response throws inside the `try` and is
caught, yielding the `maybe` fallback. -/
def askAI : AskOutcome → String × List String
  | .threw => ("maybe", ["AI požiadavka zlyhala."])
  | .response ok json =>
      if !ok then ("maybe", ["AI požiadavka zlyhala."])
      else
        match json with
        | none => ("maybe", ["AI požiadavka zlyhala."])
        | some j => (jsOr (j.status.getD "") "maybe", j.notes.getD [])

/-! ## Claim C7 -/

/-- Counterexample to C7 as stated: `evaluateWithAI` (the Advisory
Escalation function of `src/App.tsx`), given a non-2xx HTTP response,
returns a result whose status is absent (`undefined` in the source) — not
`"maybe"` — though its notes are indeed non-empty. -/
theorem c7_non2xx_status_not_maybe :
    (evaluateWithAI (.response false 503 "" none)).status = none
    ∧ (evaluateWithAI (.response false 503 "" none)).status ≠ some EvalStatus.maybe
    ∧ (evaluateWithAI (.response false 503 "" none)).notes.getD [] ≠ [] := by
  refine ⟨rfl, by decide, by decide⟩

/-- Claim C7, amended: neither client escalation function propagates an
exception (each is a total function of the fetch outcome, returning a
well-formed result on every path, including a thrown fetch); given a
non-2xx HTTP response, `askAI` returns status `"maybe"` with non-empty
notes, while `evaluateWithAI` returns an absent status — so its caller
keeps the prior local status — with non-empty notes. -/
theorem c7_escalation_total_fallback :
    (∀ (st : Nat) (txt : String) (j : Option AiReply),
        (evaluateWithAI (.response false st txt j)).status = none
        ∧ (evaluateWithAI (.response false st txt j)).notes.getD [] ≠ [])
    ∧ (evaluateWithAI .threw).status = none
    ∧ (evaluateWithAI .threw).notes.getD [] ≠ []
    ∧ (∀ j2 : Option ParsedReply,
        askAI (.response false j2) = ("maybe", ["AI požiadavka zlyhala."]))
    ∧ askAI .threw = ("maybe", ["AI požiadavka zlyhala."]) := by
  refine ⟨?_, rfl, by decide, ?_, rfl⟩
  · intro st txt j
    refine ⟨rfl, ?_⟩
    simp [evaluateWithAI]
  · intro j2
    rfl

end Intolerancies
